import Mathlib

/-!
# my-api-fetcher: URL validation, retrieval and display

A shallow embedding of the four source files

* `src/utils/validateUrl.js`   (`validateUrl`)
* `src/services/apiService.js` (`getData`)
* `src/display/displayData.js` (`displayData`)
* `src/main.js`                (`main`)

JavaScript values are the decoded JSON values plus `undefined`.  The pieces of
the platform the program calls but does not define (the `URL` class of Node,
`fetch` of node-fetch, the number type and its string conversion) are
parameters of the embedding.  A console call is recorded as the list of its
arguments; one call is one output line.
-/

namespace ApiFetcher

/-! ## Values -/

/-- A thrown JavaScript error object: its constructor name and its message. -/
structure JsError where
  name : String
  message : String
deriving DecidableEq, Repr

/-- The expression `new Error(message)`. -/
def mkError (message : String) : JsError := ⟨"Error", message⟩

/-- The error raised by the engine itself on an illegal operation. -/
def mkTypeError (message : String) : JsError := ⟨"TypeError", message⟩

/-- What the program needs from the number type of the engine: which numbers
are falsy (`0`, `-0`, `NaN`) and the string a number converts to. -/
class NumberOps (ν : Type) where
  falsy : ν → Bool
  toStr : ν → String

/-- A JavaScript value as `JSON.parse` can produce it, plus `undefined` (the
value of a missing property or argument).  A keyed object lists its own
properties, each key once, as decoding leaves them. -/
inductive JsVal (ν : Type) where
  | undefined : JsVal ν
  | null : JsVal ν
  | bool (b : Bool) : JsVal ν
  | num (n : ν) : JsVal ν
  | str (s : String) : JsVal ν
  | arr (items : List (JsVal ν)) : JsVal ν
  | obj (props : List (String × JsVal ν)) : JsVal ν

namespace JsVal

variable {ν : Type}

/-- ToBoolean. -/
def truthy [NumberOps ν] : JsVal ν → Bool
  | undefined => false
  | null => false
  | bool b => b
  | num n => !NumberOps.falsy n
  | str s => !s.data.isEmpty
  | arr _ => true
  | obj _ => true

/-- The test `Array.isArray(v)`. -/
def isArray : JsVal ν → Bool
  | arr _ => true
  | _ => false

/-- Own property lookup in a keyed object. -/
def lookupOwn (props : List (String × JsVal ν)) (key : String) : Option (JsVal ν) :=
  (props.find? fun p => p.1 == key).map Prod.snd

/-- The property read `v[key]` for a key that no built-in prototype defines and
that is neither an index nor `length` (the program reads only `id` and `name`):
the own property of a keyed object, `undefined` on every other value, and a
TypeError on `null` and `undefined`. -/
def getField (v : JsVal ν) (key : String) : Except JsError (JsVal ν) :=
  match v with
  | undefined => .error (mkTypeError ("Cannot read properties of undefined (reading \x27" ++ key ++ "\x27)"))
  | null => .error (mkTypeError ("Cannot read properties of null (reading \x27" ++ key ++ "\x27)"))
  | obj props => .ok ((lookupOwn props key).getD undefined)
  | _ => .ok undefined

mutual
/-- ToString, as applied by a template literal.  An array converts through
`Array.prototype.join`; a keyed object converts through `toString`/`valueOf`:
with the inherited `toString` that is `[object Object]`, while an own property
`toString` (never callable in decoded JSON) shadows it, `valueOf` then gives
back an object and the conversion raises a TypeError. -/
def toStr [NumberOps ν] : JsVal ν → Except JsError String
  | undefined => .ok "undefined"
  | null => .ok "null"
  | bool b => .ok (if b then "true" else "false")
  | num n => .ok (NumberOps.toStr n)
  | str s => .ok s
  | arr items => joinStr items
  | obj props =>
    match lookupOwn props "toString" with
    | some _ => .error (mkTypeError "Cannot convert object to primitive value")
    | none => .ok "[object Object]"
termination_by structural v => v
/-- The result of `items.join()` with the default separator: `null` and
`undefined` elements contribute the empty string, every other element its
ToString, and a comma stands between consecutive elements. -/
def joinStr [NumberOps ν] : List (JsVal ν) → Except JsError String
  | [] => .ok ""
  | x :: rest =>
    match (match x with
      | undefined => Except.ok ""
      | null => Except.ok ""
      | _ => toStr x) with
    | .error e => .error e
    | .ok s =>
      match rest with
      | [] => .ok s
      | _ :: _ =>
        match joinStr rest with
        | .error e => .error e
        | .ok t => .ok (s ++ "," ++ t)
termination_by structural items => items
end

/-- The values a `for ... of` loop visits: the elements of an array, the code
points of a string; any other value is not iterable. -/
def getIterator : JsVal ν → Except JsError (List (JsVal ν))
  | arr items => .ok items
  | str s => .ok (s.data.map fun c => str (String.singleton c))
  | _ => .error (mkTypeError "data is not iterable")

end JsVal

/-! ## The platform -/

/-- What the program reads from a parsed `URL` object: its `protocol` and its
serialization `href`, which `toString()` returns. -/
structure ParsedUrl where
  protocol : String
  href : String
deriving DecidableEq, Repr

/-- The method `parsedUrl.toString()`. -/
def ParsedUrl.toString (u : ParsedUrl) : String := u.href

/-- The constructor `new URL(input)`: a parsed URL, or the error it throws. -/
abbrev UrlParser := String → Except JsError ParsedUrl

/-- One call of `fetch`: the target and the options passed. -/
structure Request where
  url : String
  method : String
  headers : List (String × String)
  timeout : Nat
deriving DecidableEq, Repr

/-- A received response: its status code and what `response.json()` resolves
or rejects with. -/
structure Response (ν : Type) where
  status : Nat
  body : Except JsError (JsVal ν)

/-- The getter `response.ok` of node-fetch: status in 200..299. -/
def Response.ok {ν : Type} (r : Response ν) : Bool :=
  decide (200 ≤ r.status) && decide (r.status < 300)

/-- The platform of one run: the URL parser and what awaiting a request gives
(a response, or the error the request rejects with: transport, DNS, timeout). -/
structure Env (ν : Type) where
  URL : UrlParser
  fetch : Request → Except JsError (Response ν)

/-- One console call, recorded as its argument list. -/
abbrev Line (ν : Type) := List (JsVal ν)

/-- Everything a run does to the outside: lines written to standard output and
to the error stream, requests sent, response bodies decoded. -/
structure World (ν : Type) where
  stdout : List (Line ν)
  stderr : List (Line ν)
  requests : List Request
  bodyReads : Nat

/-- The world before the run. -/
def World.init {ν : Type} : World ν := ⟨[], [], [], 0⟩

/-- The text of a console call whose first argument holds no format directive:
the arguments separated by one space, strings as they are, any other value
through the inspector of the console. -/
def formatLine {ν : Type} (inspect : JsVal ν → String) : Line ν → String
  | [] => ""
  | a :: rest =>
    (match a with
      | .str s => s
      | v => inspect v) ++
    (match rest with
      | [] => ""
      | _ :: _ => " " ++ formatLine inspect rest)

/-! ## Computations with effects and exceptions -/

/-- A computation: from the world before, to a result or a thrown error, and
the world after.  What was written before an error is thrown stays written. -/
def Js (ν : Type) (α : Type) : Type := World ν → Except JsError α × World ν

namespace Js

variable {ν : Type} {α β : Type}

/-- Return a value. -/
def pure (a : α) : Js ν α := fun w => (.ok a, w)

/-- Run `m`, then `f` on its value; an error of `m` skips `f`. -/
def bind (m : Js ν α) (f : α → Js ν β) : Js ν β := fun w =>
  match m w with
  | (.ok a, w1) => f a w1
  | (.error e, w1) => (.error e, w1)

/-- The statement `throw e`. -/
def throw (e : JsError) : Js ν α := fun w => (.error e, w)

/-- The statement `try { m } catch (error) { handler error }`. -/
def tryCatch (m : Js ν α) (handler : JsError → Js ν α) : Js ν α := fun w =>
  match m w with
  | (.ok a, w1) => (.ok a, w1)
  | (.error e, w1) => handler e w1

/-- An effect-free evaluation that may throw. -/
def lift (x : Except JsError α) : Js ν α := fun w => (x, w)

instance : Monad (Js ν) where
  pure := Js.pure
  bind := Js.bind

/-- The call `console.log(...args)`. -/
def consoleLog (args : Line ν) : Js ν Unit := fun w =>
  (.ok (), { w with stdout := w.stdout ++ [args] })

/-- The call `console.error(...args)`. -/
def consoleError (args : Line ν) : Js ν Unit := fun w =>
  (.ok (), { w with stderr := w.stderr ++ [args] })

/-- The expression `await fetch(url, options)`. -/
def fetch (env : Env ν) (req : Request) : Js ν (Response ν) := fun w =>
  (env.fetch req, { w with requests := w.requests ++ [req] })

/-- The expression `await response.json()`. -/
def json (r : Response ν) : Js ν (JsVal ν) := fun w =>
  (r.body, { w with bodyReads := w.bodyReads + 1 })

/-- The body of a loop run on each value in turn; an error ends the loop. -/
def forEach (items : List α) (body : α → Js ν Unit) : Js ν Unit :=
  match items with
  | [] => Js.pure ()
  | x :: rest => Js.bind (body x) fun _ => forEach rest body

/-- The statement `for (let item of iterable) body`. -/
def forOf (iterable : JsVal ν) (body : JsVal ν → Js ν Unit) : Js ν Unit :=
  Js.bind (Js.lift iterable.getIterator) fun items => forEach items body

end Js

/-! ## The program -/

section Program

variable {ν : Type}

/-- The function `validateUrl` of `utils/validateUrl.js`. -/
def validateUrl (URL : UrlParser) (url : String) : Except JsError String :=
  Except.tryCatch
    (do
      let parsedUrl ← URL url
      if ["http:", "https:"].contains parsedUrl.protocol then
        Except.ok parsedUrl.toString
      else
        Except.error (mkError "Invalid URL protocol. Only HTTP/HTTPS are allowed."))
    (fun error => Except.error (mkError ("Invalid URL: " ++ error.message)))

/-- The options of the one request `getData` sends. -/
def getRequest (url : String) : Request :=
  { url := url, method := "GET", headers := [("Content-Type", "application/json")],
    timeout := 10000 }

/-- The function `getData` of `services/apiService.js`. -/
def getData (env : Env ν) (url : String) : Js ν (JsVal ν) :=
  Js.tryCatch
    (do
      let response ← Js.fetch env (getRequest url)
      if !response.ok then
        Js.throw (mkError ("Network response was not ok. Status: " ++ toString response.status))
      else
        let data ← Js.json response
        return data)
    (fun error => Js.throw (mkError ("Failed to fetch data: " ++ error.message)))

/-- The expression `item && item.id && item.name`: the first falsy operand,
or the last operand. -/
def recordTest [NumberOps ν] (item : JsVal ν) : Except JsError (JsVal ν) :=
  if !item.truthy then .ok item
  else
    match item.getField "id" with
    | .error e => .error e
    | .ok id => if !id.truthy then .ok id else item.getField "name"

/-- The template literal of the record line, with `item.id` and `item.name`
read and converted in that order. -/
def recordLine [NumberOps ν] (item : JsVal ν) : Except JsError String := do
  let id ← item.getField "id"
  let idStr ← id.toStr
  let name ← item.getField "name"
  let nameStr ← name.toStr
  return "ID: " ++ idStr ++ ", Name: " ++ nameStr

/-- The body of the loop of `displayData`. -/
def displayItem [NumberOps ν] (item : JsVal ν) : Js ν Unit := do
  let test ← Js.lift (recordTest item)
  if test.truthy then
    let line ← Js.lift (recordLine item)
    Js.consoleLog [.str line]
  else
    Js.consoleLog [.str "Invalid data item:", item]

/-- The function `displayData` of `display/displayData.js`. -/
def displayData [NumberOps ν] (data : JsVal ν) : Js ν Unit := do
  if !data.truthy || !data.isArray then
    Js.consoleLog [.str "No data received or data is not in the expected format."]
  else
    Js.consoleLog [.str "Data received:"]
    Js.forOf data displayItem

/-- The endpoint literal of `main.js`. -/
def mainUrl : String := "https://jsonplaceholder.typicode.com/users"

/-- The function `main` of `main.js`. -/
def main [NumberOps ν] (env : Env ν) : Js ν Unit :=
  Js.tryCatch
    (do
      let validatedUrl ← Js.lift (validateUrl env.URL mainUrl)
      let data ← getData env validatedUrl
      displayData data)
    (fun error => Js.consoleError [.str "Error:", .str error.message])

end Program

/-! ## Concrete platforms -/

/-- Integers of magnitude below `2 ^ 53`: each is a number of the engine
exactly, and the engine prints it as its plain decimal digits. -/
structure SmallInt where
  val : Int
  small : val.natAbs < 2 ^ 53

instance : NumberOps SmallInt where
  falsy n := n.val == 0
  toStr n := toString n.val

instance : OfNat SmallInt 0 := ⟨⟨0, by decide⟩⟩
instance : OfNat SmallInt 1 := ⟨⟨1, by decide⟩⟩
instance : OfNat SmallInt 2 := ⟨⟨2, by decide⟩⟩
instance : OfNat SmallInt 7 := ⟨⟨7, by decide⟩⟩

/-- The error `new URL` throws on an input it cannot parse. -/
def invalidUrl : JsError := mkTypeError "Invalid URL"

/-- A table of what `new URL` gives on four inputs.  Outside the table this
function rejects, which the real parser does only on an input it cannot parse
(such as `example.com/users`, which has no scheme); it stands for the parser
on those rows and on that input only. -/
def sampleURL : UrlParser := fun input =>
  if input = "https://jsonplaceholder.typicode.com/users" then
    .ok ⟨"https:", "https://jsonplaceholder.typicode.com/users"⟩
  else if input = "HTTP://Example.com" then .ok ⟨"http:", "http://example.com/"⟩
  else if input = "http://example.com/" then .ok ⟨"http:", "http://example.com/"⟩
  else if input = "ftp://example.com/file" then .ok ⟨"ftp:", "ftp://example.com/file"⟩
  else .error invalidUrl

/-- A parser that rejects every input. -/
def rejectingURL : UrlParser := fun _ => .error invalidUrl

/-- A platform whose every request is answered with the given response. -/
def respondingEnv (URL : UrlParser) (r : Response SmallInt) : Env SmallInt :=
  { URL := URL, fetch := fun _ => .ok r }

/-- A platform whose every request fails at the transport. -/
def offlineEnv (URL : UrlParser) : Env SmallInt :=
  { URL := URL, fetch := fun _ => .error (mkError "request failed, reason: ECONNREFUSED") }

/-- The payload `[{id: 1, name: "Alice"}, {id: 2, name: ""}, "not an object"]`. -/
def samplePayload : JsVal SmallInt :=
  .arr [.obj [("id", .num 1), ("name", .str "Alice")],
        .obj [("id", .num 2), ("name", .str "")],
        .str "not an object"]

/-- The payload `[{"id": {"toString": 1}, "name": "x"}]`. -/
def shadowedIdPayload : JsVal SmallInt :=
  .arr [.obj [("id", .obj [("toString", .num 1)]), ("name", .str "x")]]

/-- The payload `[{"id": 7, "name": [{"toString": null}]}]`. -/
def shadowedNamePayload : JsVal SmallInt :=
  .arr [.obj [("id", .num 7), ("name", .arr [.obj [("toString", .null)]])]]

/-- The payload `[{"id": 1, "name": "Alice"}, {"id": {"toString": 1}, "name": "x"}]`. -/
def truncatedPayload : JsVal SmallInt :=
  .arr [.obj [("id", .num 1), ("name", .str "Alice")],
        .obj [("id", .obj [("toString", .num 1)]), ("name", .str "x")]]

/-! ## Evaluation lemmas -/

section Lemmas

variable {ν : Type}

/-- What `validateUrl` returns, by the outcome of the parser. -/
theorem validateUrl_eval (URL : UrlParser) (s : String) :
    validateUrl URL s =
      match URL s with
      | .error e => .error (mkError ("Invalid URL: " ++ e.message))
      | .ok u =>
        if u.protocol = "http:" ∨ u.protocol = "https:" then .ok u.toString
        else .error (mkError "Invalid URL: Invalid URL protocol. Only HTTP/HTTPS are allowed.") := by
  unfold validateUrl
  cases h : URL s with
  | error e => rfl
  | ok u =>
    by_cases hp : u.protocol = "http:" ∨ u.protocol = "https:"
    · have hc : ["http:", "https:"].contains u.protocol = true := by
        rcases hp with hp | hp <;> simp [hp]
      simp [Except.tryCatch, bind, Except.bind, hc, hp]
    · have hc : ["http:", "https:"].contains u.protocol = false := by
        simp only [not_or] at hp
        simp [hp.1, hp.2]
      simp [Except.tryCatch, bind, Except.bind, hc, hp, mkError]

/-- What `getData` does, by the outcome of the request and of the decoding. -/
theorem getData_eval (env : Env ν) (url : String) (w : World ν) :
    getData env url w =
      match env.fetch (getRequest url) with
      | .error e =>
        (.error (mkError ("Failed to fetch data: " ++ e.message)),
          { w with requests := w.requests ++ [getRequest url] })
      | .ok resp =>
        if resp.ok then
          match resp.body with
          | .ok v =>
            (.ok v, { w with requests := w.requests ++ [getRequest url],
                             bodyReads := w.bodyReads + 1 })
          | .error e =>
            (.error (mkError ("Failed to fetch data: " ++ e.message)),
              { w with requests := w.requests ++ [getRequest url],
                       bodyReads := w.bodyReads + 1 })
        else
          (.error (mkError ("Failed to fetch data: " ++
              ("Network response was not ok. Status: " ++ toString resp.status))),
            { w with requests := w.requests ++ [getRequest url] }) := by
  unfold getData
  cases h : env.fetch (getRequest url) with
  | error e => simp [Js.tryCatch, bind, Js.bind, Js.fetch, h, Js.throw]
  | ok resp =>
    by_cases hok : resp.ok = true
    · cases hb : resp.body with
      | error e => simp [Js.tryCatch, bind, Js.bind, Js.fetch, h, Js.throw, hok, Js.json, hb]
      | ok v =>
        simp [Js.tryCatch, bind, Js.bind, Js.fetch, h, Js.throw, hok, Js.json, hb, pure, Js.pure]
    · simp only [Bool.not_eq_true] at hok
      simp [Js.tryCatch, bind, Js.bind, Js.fetch, h, Js.throw, hok, mkError]

/-- The getter `ok` is true exactly for the statuses 200 to 299. -/
theorem Response.ok_iff (r : Response ν) : r.ok = true ↔ 200 ≤ r.status ∧ r.status ≤ 299 := by
  unfold Response.ok
  simp only [Bool.and_eq_true, decide_eq_true_eq]
  omega

/-- The world after one more console line on standard output. -/
theorem consoleLog_eval (args : Line ν) (w : World ν) :
    Js.consoleLog args w = (.ok (), { w with stdout := w.stdout ++ [args] }) := rfl

/-- What one round of the loop of `displayData` does. -/
theorem displayItem_eval [NumberOps ν] (item : JsVal ν) (w : World ν) :
    displayItem item w =
      match recordTest item with
      | .error e => (.error e, w)
      | .ok test =>
        if test.truthy then
          match recordLine item with
          | .error e => (.error e, w)
          | .ok line => (.ok (), { w with stdout := w.stdout ++ [[.str line]] })
        else
          (.ok (), { w with stdout := w.stdout ++ [[.str "Invalid data item:", item]] }) := by
  unfold displayItem
  cases ht : recordTest item with
  | error e => simp [bind, Js.bind, Js.lift, ht]
  | ok test =>
    by_cases htr : test.truthy = true
    · cases hl : recordLine item with
      | error e => simp [bind, Js.bind, Js.lift, ht, htr, hl]
      | ok line => simp [bind, Js.bind, Js.lift, ht, htr, hl, consoleLog_eval]
    · simp [bind, Js.bind, Js.lift, ht, htr, consoleLog_eval]

/-- The test `item && item.id && item.name` never throws: the property reads
happen only on a truthy `item`. -/
theorem recordTest_ok [NumberOps ν] (item : JsVal ν) : ∃ v, recordTest item = .ok v := by
  unfold recordTest
  cases item with
  | undefined => exact ⟨.undefined, by simp [JsVal.truthy]⟩
  | null => exact ⟨.null, by simp [JsVal.truthy]⟩
  | bool b => cases b <;> simp [JsVal.truthy, JsVal.getField]
  | num n =>
    by_cases hn : NumberOps.falsy n = true <;> simp [JsVal.truthy, JsVal.getField, hn]
  | str s =>
    by_cases hs : s.data.isEmpty = true <;> simp [JsVal.truthy, JsVal.getField, hs]
  | arr items => simp [JsVal.truthy, JsVal.getField]
  | obj props =>
    simp only [JsVal.truthy, JsVal.getField, Bool.not_true, Bool.false_eq_true, if_false]
    split_ifs
    · exact ⟨_, rfl⟩
    · exact ⟨_, rfl⟩

/-- One round of the loop either writes exactly one line to standard output
and nothing else, or throws having written nothing. -/
theorem displayItem_cases [NumberOps ν] (item : JsVal ν) (w : World ν) :
    (∃ line, displayItem item w = (.ok (), { w with stdout := w.stdout ++ [line] })) ∨
    (∃ e, displayItem item w = (.error e, w)) := by
  rw [displayItem_eval]
  obtain ⟨t, ht⟩ := recordTest_ok item
  rw [ht]
  by_cases htr : t.truthy = true
  · cases hl : recordLine item with
    | error e => exact Or.inr ⟨e, by simp [htr]⟩
    | ok line => exact Or.inl ⟨[.str line], by simp [htr]⟩
  · exact Or.inl ⟨[.str "Invalid data item:", item], by simp [htr]⟩

/-- The loop of `displayData` only appends lines to standard output. -/
theorem forEach_displayItem_appends [NumberOps ν] (items : List (JsVal ν)) (w : World ν) :
    ∃ lines out, Js.forEach items displayItem w =
      (out, { w with stdout := w.stdout ++ lines }) := by
  induction items generalizing w with
  | nil => exact ⟨[], .ok (), by simp [Js.forEach, Js.pure]⟩
  | cons x rest ih =>
    rcases displayItem_cases x w with ⟨line, hx⟩ | ⟨e, hx⟩
    · obtain ⟨lines, out, hrest⟩ := ih { w with stdout := w.stdout ++ [line] }
      refine ⟨line :: lines, out, ?_⟩
      simp [Js.forEach, Js.bind, hx, hrest]
    · exact ⟨[], .error e, by simp [Js.forEach, Js.bind, hx]⟩

/-- On a value that is not an array, `displayData` writes the one diagnostic. -/
theorem displayData_eval_non_array [NumberOps ν] (data : JsVal ν) (w : World ν)
    (h : data.isArray = false) :
    displayData data w =
      (.ok (), { w with stdout := w.stdout ++
        [[.str "No data received or data is not in the expected format."]] }) := by
  unfold displayData
  simp [h, consoleLog_eval]

/-- On an array, `displayData` writes the header and runs the loop. -/
theorem displayData_eval_array [NumberOps ν] (items : List (JsVal ν)) (w : World ν) :
    displayData (.arr items) w =
      Js.forEach items displayItem
        { w with stdout := w.stdout ++ [[.str "Data received:"]] } := by
  unfold displayData
  simp [JsVal.truthy, JsVal.isArray, bind, Js.bind, consoleLog_eval, Js.forOf, Js.lift,
    JsVal.getIterator]

/-- Every call of `displayData` writes at least one line to standard output. -/
theorem displayData_writes [NumberOps ν] (data : JsVal ν) (w : World ν) :
    w.stdout.length < (displayData data w).2.stdout.length := by
  cases hd : data.isArray with
  | false =>
    rw [displayData_eval_non_array data w hd]
    simp
  | true =>
    cases data with
    | arr items =>
      rw [displayData_eval_array]
      obtain ⟨lines, out, h⟩ :=
        forEach_displayItem_appends items { w with stdout := w.stdout ++ [[.str "Data received:"]] }
      rw [h]
      simp
    | _ => simp [JsVal.isArray] at hd

/-- What `main` does, by the outcome of each stage. -/
theorem main_eval [NumberOps ν] (env : Env ν) (w : World ν) :
    main env w =
      match validateUrl env.URL mainUrl with
      | .error e =>
        (.ok (), { w with stderr := w.stderr ++ [[.str "Error:", .str e.message]] })
      | .ok validatedUrl =>
        match getData env validatedUrl w with
        | (.error e, w1) =>
          (.ok (), { w1 with stderr := w1.stderr ++ [[.str "Error:", .str e.message]] })
        | (.ok data, w1) =>
          match displayData data w1 with
          | (.error e, w2) =>
            (.ok (), { w2 with stderr := w2.stderr ++ [[.str "Error:", .str e.message]] })
          | (.ok (), w2) => (.ok (), w2) := by
  unfold main
  cases hv : validateUrl env.URL mainUrl with
  | error e => simp [Js.tryCatch, bind, Js.bind, Js.lift, hv, Js.consoleError]
  | ok r =>
    rcases hg : getData env r w with ⟨out, w1⟩
    cases out with
    | error e => simp [Js.tryCatch, bind, Js.bind, Js.lift, hv, hg, Js.consoleError]
    | ok data =>
      rcases hd : displayData data w1 with ⟨out2, w2⟩
      cases out2 with
      | error e => simp [Js.tryCatch, bind, Js.bind, Js.lift, hv, hg, hd, Js.consoleError]
      | ok u => simp [Js.tryCatch, bind, Js.bind, Js.lift, hv, hg, hd]

/-- The test `item && item.id && item.name` is truthy exactly on a keyed object
whose own `id` and `name` are both truthy. -/
theorem recordTest_truthy_iff [NumberOps ν] (item : JsVal ν) :
    (∃ t, recordTest item = .ok t ∧ t.truthy = true) ↔
      ∃ props id name, item = .obj props ∧
        JsVal.lookupOwn props "id" = some id ∧ id.truthy = true ∧
        JsVal.lookupOwn props "name" = some name ∧ name.truthy = true := by
  cases item with
  | undefined => simp [recordTest, JsVal.truthy]
  | null => simp [recordTest, JsVal.truthy]
  | bool b => cases b <;> simp [recordTest, JsVal.truthy, JsVal.getField]
  | num n =>
    by_cases hn : NumberOps.falsy n = true <;>
      simp [recordTest, JsVal.truthy, JsVal.getField, hn]
  | str s =>
    by_cases hs : s.data.isEmpty = true <;>
      simp [recordTest, JsVal.truthy, JsVal.getField, hs]
  | arr items => simp [recordTest, JsVal.truthy, JsVal.getField]
  | obj props =>
    have ho : (JsVal.obj props : JsVal ν).truthy = true := rfl
    have hu : (JsVal.undefined : JsVal ν).truthy = false := rfl
    unfold recordTest
    simp only [ho, JsVal.getField, Bool.not_true, Bool.false_eq_true, if_false]
    cases hid : JsVal.lookupOwn props "id" with
    | none =>
      simp only [Option.getD_none, hu, Bool.not_false, if_true]
      constructor
      · rintro ⟨t, ht, htt⟩
        cases ht
        rw [hu] at htt
        cases htt
      · rintro ⟨props1, id, name, hp, hid1, _⟩
        cases hp
        rw [hid] at hid1
        cases hid1
    | some id =>
      simp only [Option.getD_some]
      by_cases hidt : id.truthy = true
      · simp only [hidt, Bool.not_true, Bool.false_eq_true, if_false]
        cases hname : JsVal.lookupOwn props "name" with
        | none =>
          simp only [Option.getD_none]
          constructor
          · rintro ⟨t, ht, htt⟩
            cases ht
            rw [hu] at htt
            cases htt
          · rintro ⟨props1, id1, name, hp, _, _, hname1, _⟩
            cases hp
            rw [hname] at hname1
            cases hname1
        | some name =>
          simp only [Option.getD_some]
          constructor
          · rintro ⟨t, ht, htt⟩
            cases ht
            exact ⟨props, id, name, rfl, hid, hidt, hname, htt⟩
          · rintro ⟨props1, id1, name1, hp, _, _, hname1, hnt⟩
            cases hp
            rw [hname] at hname1
            cases hname1
            exact ⟨name, rfl, hnt⟩
      · have hidf : id.truthy = false := by simpa using hidt
        simp only [hidf, Bool.not_false, if_true]
        constructor
        · rintro ⟨t, ht, htt⟩
          cases ht
          exact absurd htt hidt
        · rintro ⟨props1, id1, name1, hp, hid1, hid1t, _⟩
          cases hp
          rw [hid] at hid1
          cases hid1
          exact absurd hid1t hidt

/-- When every element that passes the record test has a record line (the
string conversions of its `id` and `name` succeed), `displayData` completes on
the array, having written the header and then one line per element in order:
the record line of an element that passes the test, the diagnostic with the
element itself for any other. -/
theorem displayData_array_lines [NumberOps ν] (items : List (JsVal ν)) (w : World ν)
    (hconv : ∀ item ∈ items, ∀ t, recordTest item = .ok t → t.truthy = true →
      ∃ line, recordLine item = .ok line) :
    ∃ lines, displayData (.arr items) w =
        (.ok (), { w with stdout := w.stdout ++ [.str "Data received:"] :: lines }) ∧
      List.Forall₂ (fun item line => ∃ t, recordTest item = .ok t ∧
        ((t.truthy = true ∧ ∃ text, recordLine item = .ok text ∧ line = [.str text]) ∨
         (t.truthy = false ∧ line = [.str "Invalid data item:", item]))) items lines := by
  rw [displayData_eval_array]
  have key : ∀ (w1 : World ν), ∃ lines, Js.forEach items displayItem w1 =
        (.ok (), { w1 with stdout := w1.stdout ++ lines }) ∧
      List.Forall₂ (fun item line => ∃ t, recordTest item = .ok t ∧
        ((t.truthy = true ∧ ∃ text, recordLine item = .ok text ∧ line = [.str text]) ∨
         (t.truthy = false ∧ line = [.str "Invalid data item:", item]))) items lines := by
    induction items with
    | nil =>
      intro w1
      exact ⟨[], by simp [Js.forEach, Js.pure], List.Forall₂.nil⟩
    | cons x rest ih =>
      intro w1
      obtain ⟨t, ht⟩ := recordTest_ok x
      have hrest := ih (fun item hmem => hconv item (List.mem_cons_of_mem _ hmem))
      by_cases htr : t.truthy = true
      · obtain ⟨text, htext⟩ := hconv x (List.mem_cons_self _ _) t ht htr
        obtain ⟨lines, hrun, hall⟩ := hrest { w1 with stdout := w1.stdout ++ [[.str text]] }
        refine ⟨[.str text] :: lines, ?_, ?_⟩
        · simp [Js.forEach, Js.bind, displayItem_eval, ht, htr, htext, hrun]
        · exact List.Forall₂.cons ⟨t, ht, Or.inl ⟨htr, text, htext, rfl⟩⟩ hall
      · obtain ⟨lines, hrun, hall⟩ :=
          hrest { w1 with stdout := w1.stdout ++ [[.str "Invalid data item:", x]] }
        refine ⟨[.str "Invalid data item:", x] :: lines, ?_, ?_⟩
        · simp [Js.forEach, Js.bind, displayItem_eval, ht, htr, hrun]
        · simp only [Bool.not_eq_true] at htr
          exact List.Forall₂.cons ⟨t, ht, Or.inr ⟨htr, rfl⟩⟩ hall
  obtain ⟨lines, hrun, hall⟩ := key { w with stdout := w.stdout ++ [[.str "Data received:"]] }
  refine ⟨lines, ?_, hall⟩
  rw [hrun]
  simp

/-- The presenter on `[{id: 1, name: "Alice"}, {id: 2, name: ""}, "not an object"]`:
the header, the record line of the first element, and a diagnostic for each of
the other two. -/
theorem displayData_samplePayload :
    displayData samplePayload World.init =
      (.ok (),
        ⟨[[.str "Data received:"], [.str "ID: 1, Name: Alice"],
          [.str "Invalid data item:", .obj [("id", .num 2), ("name", .str "")]],
          [.str "Invalid data item:", .str "not an object"]], [], [], 0⟩) := rfl

/-- The presenter on the empty array: the header alone. -/
theorem displayData_empty (w : World ν) [NumberOps ν] :
    displayData (.arr []) w =
      (.ok (), { w with stdout := w.stdout ++ [[.str "Data received:"]] }) := by
  rw [displayData_eval_array]
  rfl

end Lemmas

/-! ## The URL validator -/

/-- C1: `validateUrl` accepts exactly the inputs that parse with protocol
`http:` or `https:`.  It succeeds on those and on no other input, the string
it returns is the serialization of the parsed input, and on every other input
(unparseable, or parsed with another protocol) it fails with an error whose
message begins `Invalid URL: `. -/
theorem validateUrl_accepts_exactly_http (URL : UrlParser) (s : String) :
    ((∃ r, validateUrl URL s = .ok r) ↔
        ∃ u, URL s = .ok u ∧ (u.protocol = "http:" ∨ u.protocol = "https:")) ∧
    (∀ u, URL s = .ok u → (u.protocol = "http:" ∨ u.protocol = "https:") →
        validateUrl URL s = .ok u.toString) ∧
    ((∀ u, URL s = .ok u → u.protocol ≠ "http:" ∧ u.protocol ≠ "https:") →
        ∃ e, validateUrl URL s = .error e ∧ e.name = "Error" ∧
          "Invalid URL: ".data <+: e.message.data) := by
  rw [validateUrl_eval]
  cases h : URL s with
  | error e =>
    refine ⟨?_, ?_, ?_⟩
    · simp
    · intro u hu; cases hu
    · intro _
      exact ⟨_, rfl, rfl, by simp [mkError, String.data_append]⟩
  | ok u =>
    by_cases hp : u.protocol = "http:" ∨ u.protocol = "https:"
    · refine ⟨?_, ?_, ?_⟩
      · simp [hp]
      · intro u1 hu _
        cases hu
        simp [hp]
      · intro hall
        have := hall u rfl
        rcases hp with hp | hp
        · exact absurd hp this.1
        · exact absurd hp this.2
    · refine ⟨?_, ?_, ?_⟩
      · simp [hp]
      · intro u1 hu hp1
        cases hu
        exact absurd hp1 hp
      · intro _
        simp only [hp, if_false]
        exact ⟨_, rfl, rfl, by decide⟩

/-- Witness for C1: on the sample parser, `HTTP://Example.com` is accepted and
returned in normalized form, while an `ftp:` URL is rejected. -/
theorem validateUrl_accepts_exactly_http_witness :
    validateUrl sampleURL "HTTP://Example.com" = .ok "http://example.com/" ∧
    ∃ e, validateUrl sampleURL "ftp://example.com/file" = .error e ∧ e.name = "Error" ∧
      "Invalid URL: ".data <+: e.message.data :=
  ⟨(validateUrl_accepts_exactly_http sampleURL "HTTP://Example.com").2.1
      ⟨"http:", "http://example.com/"⟩ rfl (Or.inl rfl),
   (validateUrl_accepts_exactly_http sampleURL "ftp://example.com/file").2.2
      (fun u hu => by
        have : u = ⟨"ftp:", "ftp://example.com/file"⟩ := (Except.ok.inj hu).symm
        subst this
        exact ⟨by decide, by decide⟩)⟩

/-- C10: the message of every error `validateUrl` raises carries the reason.
When the parser fails, the message is `Invalid URL: ` followed by the message
of the parser; when the input parses with a protocol other than `http:` and
`https:`, the error thrown inside the `try` is wrapped by the `catch` of the
same function and the message is
`Invalid URL: Invalid URL protocol. Only HTTP/HTTPS are allowed.`; and every
error the function raises is one of these two. -/
theorem validateUrl_error_message (URL : UrlParser) (s : String) :
    (∀ e, URL s = .error e →
        validateUrl URL s = .error (mkError ("Invalid URL: " ++ e.message))) ∧
    (∀ u, URL s = .ok u → u.protocol ≠ "http:" → u.protocol ≠ "https:" →
        validateUrl URL s =
          .error (mkError "Invalid URL: Invalid URL protocol. Only HTTP/HTTPS are allowed.")) ∧
    (∀ err, validateUrl URL s = .error err →
        (∃ e, URL s = .error e ∧ err.message = "Invalid URL: " ++ e.message) ∨
        (∃ u, URL s = .ok u ∧ u.protocol ≠ "http:" ∧ u.protocol ≠ "https:" ∧
          err.message = "Invalid URL: Invalid URL protocol. Only HTTP/HTTPS are allowed.")) := by
  rw [validateUrl_eval]
  cases h : URL s with
  | error e =>
    refine ⟨?_, ?_, ?_⟩
    · intro e1 he
      cases he
      rfl
    · intro u hu
      cases hu
    · intro err herr
      cases herr
      exact Or.inl ⟨e, rfl, rfl⟩
  | ok u =>
    refine ⟨?_, ?_, ?_⟩
    · intro e he
      cases he
    · intro u1 hu h1 h2
      cases hu
      simp [h1, h2]
    · intro err herr
      by_cases hp : u.protocol = "http:" ∨ u.protocol = "https:"
      · simp [hp] at herr
      · simp only [hp, if_false] at herr
        cases herr
        simp only [not_or] at hp
        exact Or.inr ⟨u, rfl, hp.1, hp.2, rfl⟩

/-- Witness for C10: the two messages on the sample parser. -/
theorem validateUrl_error_message_witness :
    validateUrl sampleURL "example.com/users" = .error (mkError "Invalid URL: Invalid URL") ∧
    validateUrl sampleURL "ftp://example.com/file" =
      .error (mkError "Invalid URL: Invalid URL protocol. Only HTTP/HTTPS are allowed.") :=
  ⟨(validateUrl_error_message sampleURL "example.com/users").1 invalidUrl rfl,
   (validateUrl_error_message sampleURL "ftp://example.com/file").2.1
      ⟨"ftp:", "ftp://example.com/file"⟩ rfl (by decide) (by decide)⟩

/-- What idempotence of `validateUrl` rests on.  The function returns the
serialization the parser produced, so a second validation gives the same string
for a parser that reads the serialization of an `http:` or `https:` URL back as
the URL it came from.  That round trip is a property of the parser alone; the
program does nothing to establish it. -/
theorem validateUrl_fixed_of_round_trip (URL : UrlParser)
    (hround : ∀ s u, URL s = .ok u → (u.protocol = "http:" ∨ u.protocol = "https:") →
      URL u.href = .ok u)
    (s r : String) (hr : validateUrl URL s = .ok r) :
    validateUrl URL r = .ok r := by
  rw [validateUrl_eval] at hr
  cases h : URL s with
  | error e =>
    rw [h] at hr
    cases hr
  | ok u =>
    rw [h] at hr
    by_cases hp : u.protocol = "http:" ∨ u.protocol = "https:"
    · simp only [hp, if_true] at hr
      cases hr
      rw [validateUrl_eval]
      have h2 : URL u.toString = .ok u := hround s u h hp
      rw [h2]
      simp [hp]
    · simp only [hp, if_false] at hr
      cases hr

/-! ## The fetcher -/

/-- C4: when a response arrives with a status outside 200..299, `getData`
fails with the message
`Failed to fetch data: Network response was not ok. Status: <status>`, the
status in decimal, so the message contains the status code; the request was
sent and the body was not decoded. -/
theorem getData_fails_on_bad_status {ν : Type} (env : Env ν) (url : String) (w : World ν)
    (resp : Response ν) (hresp : env.fetch (getRequest url) = .ok resp)
    (hstatus : resp.status < 200 ∨ 299 < resp.status) :
    getData env url w =
      (.error (mkError ("Failed to fetch data: Network response was not ok. Status: " ++
          toString resp.status)),
        { w with requests := w.requests ++ [getRequest url] }) ∧
    (getData env url w).2.bodyReads = w.bodyReads ∧
    ∀ e, (getData env url w).1 = .error e →
      (toString resp.status).data <:+: e.message.data := by
  have hok : resp.ok = false := by
    cases hb : resp.ok with
    | false => rfl
    | true =>
      have := (Response.ok_iff resp).1 hb
      omega
  have hmsg : "Failed to fetch data: " ++
      ("Network response was not ok. Status: " ++ toString resp.status) =
      "Failed to fetch data: Network response was not ok. Status: " ++ toString resp.status := by
    rw [← String.append_assoc]
    rfl
  have heval : getData env url w =
      (.error (mkError ("Failed to fetch data: Network response was not ok. Status: " ++
          toString resp.status)),
        { w with requests := w.requests ++ [getRequest url] }) := by
    rw [getData_eval, hresp]
    simp only [hok, hmsg]
    rfl
  refine ⟨heval, ?_, ?_⟩
  · rw [heval]
  · intro e he
    rw [heval] at he
    cases he
    simp only [mkError, String.data_append]
    exact (List.suffix_append _ _).isInfix

/-- Witness for C4: a 404 response gives a message that contains `404`. -/
theorem getData_fails_on_bad_status_witness :
    (getData (respondingEnv sampleURL ⟨404, .ok .null⟩) "http://example.com/" World.init).1 =
      .error (mkError "Failed to fetch data: Network response was not ok. Status: 404") ∧
    "404".data <:+:
      "Failed to fetch data: Network response was not ok. Status: 404".data :=
  ⟨congrArg Prod.fst
      (getData_fails_on_bad_status (respondingEnv sampleURL ⟨404, .ok .null⟩)
        "http://example.com/" World.init ⟨404, .ok .null⟩ rfl (Or.inr (by decide))).1,
   (getData_fails_on_bad_status (respondingEnv sampleURL ⟨404, .ok .null⟩)
        "http://example.com/" World.init ⟨404, .ok .null⟩ rfl (Or.inr (by decide))).2.2
      _ rfl⟩

/-- C5: `getData` returns a value exactly when the request completes, the
status is in 200..299 and the body decodes, and the value is then the decoded
value itself.  In every other case it fails with `Failed to fetch data: `
followed by the description of the underlying failure: the message of the
transport error, the status report, or the message of the decode error. -/
theorem getData_result {ν : Type} (env : Env ν) (url : String) (w : World ν) :
    (∀ v, (getData env url w).1 = .ok v ↔
        ∃ resp, env.fetch (getRequest url) = .ok resp ∧
          (200 ≤ resp.status ∧ resp.status ≤ 299) ∧ resp.body = .ok v) ∧
    (∀ e, env.fetch (getRequest url) = .error e →
        (getData env url w).1 = .error (mkError ("Failed to fetch data: " ++ e.message))) ∧
    (∀ resp, env.fetch (getRequest url) = .ok resp →
        ¬ (200 ≤ resp.status ∧ resp.status ≤ 299) →
        (getData env url w).1 = .error (mkError ("Failed to fetch data: " ++
          ("Network response was not ok. Status: " ++ toString resp.status)))) ∧
    (∀ resp e, env.fetch (getRequest url) = .ok resp →
        (200 ≤ resp.status ∧ resp.status ≤ 299) → resp.body = .error e →
        (getData env url w).1 = .error (mkError ("Failed to fetch data: " ++ e.message))) := by
  rw [getData_eval]
  cases h : env.fetch (getRequest url) with
  | error e =>
    refine ⟨?_, ?_, ?_, ?_⟩
    · intro v
      simp
    · intro e1 he
      cases he
      rfl
    · intro resp hr
      cases hr
    · intro resp e1 hr
      cases hr
  | ok resp =>
    by_cases hok : resp.ok = true
    · have hrange := (Response.ok_iff resp).1 hok
      cases hb : resp.body with
      | error eb =>
        refine ⟨?_, ?_, ?_, ?_⟩
        · intro v
          simp [hok, hb]
        · intro e he
          cases he
        · intro r hr hn
          cases hr
          exact absurd hrange hn
        · intro r e hr _ hbe
          cases hr
          rw [hb] at hbe
          cases hbe
          simp [hok, hb]
      | ok v0 =>
        refine ⟨?_, ?_, ?_, ?_⟩
        · intro v
          simp [hok, hb, hrange]
        · intro e he
          cases he
        · intro r hr hn
          cases hr
          exact absurd hrange hn
        · intro r e hr _ hbe
          cases hr
          rw [hb] at hbe
          cases hbe
    · have hrange : ¬ (200 ≤ resp.status ∧ resp.status ≤ 299) := fun hc =>
        hok ((Response.ok_iff resp).2 hc)
      simp only [Bool.not_eq_true] at hok
      refine ⟨?_, ?_, ?_, ?_⟩
      · intro v
        simp only [hok]
        constructor
        · intro hv
          cases hv
        · rintro ⟨r, hr, hin, _⟩
          cases hr
          exact absurd hin hrange
      · intro e he
        cases he
      · intro r hr _
        cases hr
        simp [hok]
      · intro r e hr hin
        cases hr
        exact absurd hin hrange

/-- Witness for C5: a 200 response whose body decodes is returned as decoded, a
transport failure and a decode failure are reported with the prefix. -/
theorem getData_result_witness :
    (getData (respondingEnv sampleURL ⟨200, .ok samplePayload⟩) "http://example.com/"
        World.init).1 = .ok samplePayload ∧
    (getData (offlineEnv sampleURL) "http://example.com/" World.init).1 =
      .error (mkError "Failed to fetch data: request failed, reason: ECONNREFUSED") ∧
    (getData (respondingEnv sampleURL ⟨200, .error (mkError "Unexpected token < in JSON")⟩)
        "http://example.com/" World.init).1 =
      .error (mkError "Failed to fetch data: Unexpected token < in JSON") :=
  ⟨((getData_result (respondingEnv sampleURL ⟨200, .ok samplePayload⟩) "http://example.com/"
        World.init).1 samplePayload).2
      ⟨⟨200, .ok samplePayload⟩, rfl, ⟨by decide, by decide⟩, rfl⟩,
   (getData_result (offlineEnv sampleURL) "http://example.com/" World.init).2.1 _ rfl,
   (getData_result (respondingEnv sampleURL ⟨200, .error (mkError "Unexpected token < in JSON")⟩)
        "http://example.com/" World.init).2.2.2 _ _ rfl ⟨by decide, by decide⟩ rfl⟩

/-! ## The presenter -/

/-- C3: on every value that is not an array (`undefined`, `null`, a number, a
string, a boolean, a keyed object, falsy or truthy), `displayData` completes
having written exactly one line, the diagnostic
`No data received or data is not in the expected format.`; that line is not
the header, and nothing else changes. -/
theorem displayData_non_array {ν : Type} [NumberOps ν] (data : JsVal ν) (w : World ν)
    (h : data.isArray = false) :
    displayData data w =
      (.ok (), { w with stdout := w.stdout ++
        [[.str "No data received or data is not in the expected format."]] }) ∧
    (∀ inspect : JsVal ν → String,
      formatLine inspect [.str "No data received or data is not in the expected format."] =
        "No data received or data is not in the expected format.") ∧
    ([.str "No data received or data is not in the expected format."] : Line ν) ≠
      [.str "Data received:"] := by
  refine ⟨displayData_eval_non_array data w h, fun _ => rfl, ?_⟩
  intro hc
  have hs := JsVal.str.inj (List.cons.inj hc).1
  exact absurd hs (by decide)

/-- Witness for C3: `null` and a truthy keyed object both give the one diagnostic. -/
theorem displayData_non_array_witness :
    (displayData (.null : JsVal SmallInt) World.init).2.stdout =
      [[.str "No data received or data is not in the expected format."]] ∧
    (displayData (.obj [("id", .num 1)] : JsVal SmallInt) World.init).2.stdout =
      [[.str "No data received or data is not in the expected format."]] :=
  ⟨congrArg (fun r => r.2.stdout)
      (displayData_non_array (.null : JsVal SmallInt) World.init rfl).1,
   congrArg (fun r => r.2.stdout)
      (displayData_non_array (.obj [("id", .num 1)] : JsVal SmallInt) World.init rfl).1⟩

/-- C2, at the payload `[{"id": {"toString": 1}, "name": "x"}]`: the element
is a keyed object whose `id` and `name` are both truthy, yet `displayData`
writes the header and no line for the element, and throws the TypeError of the
string conversion of `id`. -/
theorem displayData_shadowed_id_no_line :
    displayData shadowedIdPayload World.init =
      (.error (mkTypeError "Cannot convert object to primitive value"),
        ⟨[[.str "Data received:"]], [], [], 0⟩) ∧
    (∃ t, recordTest (.obj [("id", .obj [("toString", .num 1)]), ("name", .str "x")]
        : JsVal SmallInt) = .ok t ∧ t.truthy = true) ∧
    (displayData shadowedIdPayload World.init).2.stdout.length ≠ 1 + 1 :=
  ⟨rfl, ⟨.str "x", rfl, rfl⟩, by decide⟩

/-- C8, at the payload `[{"id": 7, "name": [{"toString": null}]}]`:
`displayData` does not complete, it throws a TypeError. -/
theorem displayData_shadowed_name_throws :
    (displayData shadowedNamePayload World.init).1 =
      .error (mkTypeError "Cannot convert object to primitive value") := rfl

/-! ## The orchestrator -/

/-- C6: when `validateUrl` fails, `main` sends no request and writes nothing to
standard output (neither `getData` nor `displayData` runs); when `validateUrl`
succeeds and `getData` fails, nothing is written to standard output
(`displayData` does not run).  In both cases `main` completes normally and the
only thing it writes is one line on the error stream, `Error: <message>` with
the message of the failure.  A call of `displayData` always writes to standard
output and a call of `getData` always sends a request, so their absence from
the world is their not having been called. -/
theorem main_reports_failure {ν : Type} [NumberOps ν] (env : Env ν) (w : World ν) :
    (∀ e, validateUrl env.URL mainUrl = .error e →
        main env w =
          (.ok (), { w with stderr := w.stderr ++ [[.str "Error:", .str e.message]] })) ∧
    (∀ r e w1, validateUrl env.URL mainUrl = .ok r → getData env r w = (.error e, w1) →
        main env w =
          (.ok (), { w1 with stderr := w1.stderr ++ [[.str "Error:", .str e.message]] }) ∧
        w1.stdout = w.stdout ∧ w1.stderr = w.stderr) ∧
    (∀ (inspect : JsVal ν → String) (message : String),
        formatLine inspect [.str "Error:", .str message] = "Error: " ++ message) ∧
    (∀ (data : JsVal ν) (w0 : World ν),
        w0.stdout.length < (displayData data w0).2.stdout.length) ∧
    (∀ (url : String) (w0 : World ν),
        (getData env url w0).2.requests = w0.requests ++ [getRequest url]) := by
  refine ⟨?_, ?_, ?_, ?_, ?_⟩
  · intro e he
    rw [main_eval, he]
  · intro r e w1 hr hg
    refine ⟨?_, ?_, ?_⟩
    · rw [main_eval, hr]
      simp only [hg]
    · rw [getData_eval] at hg
      cases hf : env.fetch (getRequest r) with
      | error e1 =>
        rw [hf] at hg
        cases hg
        rfl
      | ok resp =>
        rw [hf] at hg
        simp only at hg
        split_ifs at hg
        · cases hb : resp.body with
          | error eb =>
            rw [hb] at hg
            cases hg
            rfl
          | ok v =>
            rw [hb] at hg
            cases hg
        · cases hg
          rfl
    · rw [getData_eval] at hg
      cases hf : env.fetch (getRequest r) with
      | error e1 =>
        rw [hf] at hg
        cases hg
        rfl
      | ok resp =>
        rw [hf] at hg
        simp only at hg
        split_ifs at hg
        · cases hb : resp.body with
          | error eb =>
            rw [hb] at hg
            cases hg
            rfl
          | ok v =>
            rw [hb] at hg
            cases hg
        · cases hg
          rfl
  · intro inspect message
    simp only [formatLine, String.append_empty]
    rw [← String.append_assoc]
    rfl
  · intro data w0
    exact displayData_writes data w0
  · intro url w0
    rw [getData_eval]
    cases hf : env.fetch (getRequest url) with
    | error e1 => rfl
    | ok resp =>
      simp only
      split_ifs
      · cases hb : resp.body <;> rfl
      · rfl

/-- Witness for C6: with a parser that rejects the endpoint, and with a
transport that fails, `main` writes the one error line and nothing else. -/
theorem main_reports_failure_witness :
    main (offlineEnv rejectingURL) World.init =
      (.ok (), ⟨[], [[.str "Error:", .str "Invalid URL: Invalid URL"]], [], 0⟩) ∧
    main (offlineEnv sampleURL) World.init =
      (.ok (), ⟨[], [[.str "Error:",
          .str "Failed to fetch data: request failed, reason: ECONNREFUSED"]],
        [getRequest mainUrl], 0⟩) :=
  ⟨(main_reports_failure (offlineEnv rejectingURL) World.init).1
      (mkError "Invalid URL: Invalid URL") rfl,
   ((main_reports_failure (offlineEnv sampleURL) World.init).2.1
      mainUrl (mkError "Failed to fetch data: request failed, reason: ECONNREFUSED")
      ⟨[], [], [getRequest mainUrl], 0⟩ rfl rfl).1⟩

/-- C7, at the response `[{"id": 1, "name": "Alice"}, {"id": {"toString": 1}, "name": "x"}]`:
the run of `main` writes the header and the line of the first record to
standard output and then an `Error:` line to the error stream. -/
theorem main_header_then_error :
    main (respondingEnv sampleURL ⟨200, .ok truncatedPayload⟩) World.init =
      (.ok (),
        ⟨[[.str "Data received:"], [.str "ID: 1, Name: Alice"]],
         [[.str "Error:", .str "Cannot convert object to primitive value"]],
         [getRequest mainUrl], 1⟩) := rfl

end ApiFetcher
